import Mathlib

/-!
Verification of the world-generation and spatial-indexing subsystem
(src/game/world/world_generator.py and src/game/utils/spatial_hash.py).

Shallow embedding conventions: Python floats are modelled as rationals,
Python ints as Int, the grid dict as an association list with unique keys,
and Python sets as lists read up to membership.  Entities are identified
by natural numbers; their live coordinates are supplied by a position map
passed to the queries that read them.  The process-global random module
is modelled as an infinite stream of raw draws plus a cursor.
-/

abbrev Cell := ℤ × ℤ

abbrev Bucket := List ℕ

/-- Python set.add: insert the element when absent. -/
def bucketAdd (b : Bucket) (e : ℕ) : Bucket :=
  if e ∈ b then b else b.concat e

/-- Python set.discard: drop the element. -/
def bucketDiscard (b : Bucket) (e : ℕ) : Bucket :=
  b.filter (fun a => a ≠ e)

/-- Python dict lookup over the association-list model. -/
def dictLookup : List (Cell × Bucket) → Cell → Option Bucket
  | [], _ => none
  | kv :: rest, k => if kv.1 = k then some kv.2 else dictLookup rest k

/-- Python dict assignment: replace the binding when the key is present,
append it otherwise. -/
def dictSet : List (Cell × Bucket) → Cell → Bucket → List (Cell × Bucket)
  | [], k, v => [(k, v)]
  | kv :: rest, k, v => if kv.1 = k then (k, v) :: rest else kv :: dictSet rest k v

/-- Python del of a dict key: drop its binding. -/
def dictDel : List (Cell × Bucket) → Cell → List (Cell × Bucket)
  | [], _ => []
  | kv :: rest, k => if kv.1 = k then dictDel rest k else kv :: dictDel rest k

/-- SpatialHash from src/game/utils/spatial_hash.py; default cell_size is 64. -/
structure SpatialHash where
  cell_size : ℤ
  grid : List (Cell × Bucket)
deriving DecidableEq

namespace SpatialHash

/-- Constructor: the arguments are stored without any validation. -/
def init (cell_size : ℤ) : SpatialHash :=
  { cell_size := cell_size, grid := [] }

/-- Cell key for a position: int(x // cell_size) in Python is the floor of
the exact quotient. -/
def get_cell_key (h : SpatialHash) (x y : ℚ) : Cell :=
  (⌊x / (h.cell_size : ℚ)⌋, ⌊y / (h.cell_size : ℚ)⌋)

def add_entity (h : SpatialHash) (e : ℕ) (x y : ℚ) : SpatialHash :=
  let cell_key := h.get_cell_key x y
  { h with grid := dictSet h.grid cell_key (bucketAdd ((dictLookup h.grid cell_key).getD []) e) }

def remove_entity (h : SpatialHash) (e : ℕ) (x y : ℚ) : SpatialHash :=
  let cell_key := h.get_cell_key x y
  match dictLookup h.grid cell_key with
  | none => h
  | some b =>
    let b' := bucketDiscard b e
    if b'.isEmpty then { h with grid := dictDel h.grid cell_key }
    else { h with grid := dictSet h.grid cell_key b' }

def update_entity_position (h : SpatialHash) (e : ℕ) (old_x old_y new_x new_y : ℚ) : SpatialHash :=
  if h.get_cell_key old_x old_y ≠ h.get_cell_key new_x new_y then
    (h.remove_entity e old_x old_y).add_entity e new_x new_y
  else h

/-- Observable contents of one cell. -/
def members (h : SpatialHash) (k : Cell) : Bucket :=
  (dictLookup h.grid k).getD []

end SpatialHash

/-- Consecutive integers starting at lo, n of them. -/
def intRangeAux (lo : ℤ) : ℕ → List ℤ
  | 0 => []
  | n + 1 => lo :: intRangeAux (lo + 1) n

/-- Python range lo (hi + 1) over integers, as iterated by the query loops. -/
def intRange (lo hi : ℤ) : List ℤ :=
  intRangeAux lo (hi + 1 - lo).toNat

/-- Exact Euclidean distance test sqrt (dx * dx + dy * dy) <= r from the
source, encoded over the rationals without the square root: for real r the
comparison holds exactly when r is nonnegative and dx * dx + dy * dy <= r * r. -/
def distLe (dx dy r : ℚ) : Bool :=
  decide (0 ≤ r ∧ dx * dx + dy * dy ≤ r * r)

namespace SpatialHash

/-- Radius query: visit every cell of the bounding square of the radius,
collect bucket members, filter by exact live distance.  The Python version
accumulates the survivors into a set; the returned list is read up to
membership. -/
def get_entities_in_radius (h : SpatialHash) (pos : ℕ → ℚ × ℚ) (x y radius : ℚ) : List ℕ :=
  let min_cell_x := ⌊(x - radius) / (h.cell_size : ℚ)⌋
  let max_cell_x := ⌊(x + radius) / (h.cell_size : ℚ)⌋
  let min_cell_y := ⌊(y - radius) / (h.cell_size : ℚ)⌋
  let max_cell_y := ⌊(y + radius) / (h.cell_size : ℚ)⌋
  (intRange min_cell_x max_cell_x).flatMap (fun cell_x =>
    (intRange min_cell_y max_cell_y).flatMap (fun cell_y =>
      (h.members (cell_x, cell_y)).filter (fun e =>
        distLe ((pos e).1 - x) ((pos e).2 - y) radius)))

/-- Rectangle query: same bucket restriction with an axis-aligned
containment filter on the live positions. -/
def get_entities_in_rect (h : SpatialHash) (pos : ℕ → ℚ × ℚ) (x y width height : ℚ) : List ℕ :=
  let min_cell_x := ⌊x / (h.cell_size : ℚ)⌋
  let max_cell_x := ⌊(x + width) / (h.cell_size : ℚ)⌋
  let min_cell_y := ⌊y / (h.cell_size : ℚ)⌋
  let max_cell_y := ⌊(y + height) / (h.cell_size : ℚ)⌋
  (intRange min_cell_x max_cell_x).flatMap (fun cell_x =>
    (intRange min_cell_y max_cell_y).flatMap (fun cell_y =>
      (h.members (cell_x, cell_y)).filter (fun e =>
        decide (x ≤ (pos e).1 ∧ (pos e).1 ≤ x + width ∧
                y ≤ (pos e).2 ∧ (pos e).2 ≤ y + height))))

def get_visible_entities (h : SpatialHash) (pos : ℕ → ℚ × ℚ)
    (camera_x camera_y screen_width screen_height : ℚ) : List ℕ :=
  h.get_entities_in_rect pos camera_x camera_y screen_width screen_height

/-- Every entity stored anywhere in the grid, for the brute force reference. -/
def all_entities (h : SpatialHash) : List ℕ :=
  h.grid.flatMap (fun kv => kv.2)

/-- Brute force reference scan: the exact distance filter applied to every
stored entity. -/
def brute_force_radius (h : SpatialHash) (pos : ℕ → ℚ × ℚ) (x y radius : ℚ) : List ℕ :=
  (h.all_entities).filter (fun e => distLe ((pos e).1 - x) ((pos e).2 - y) radius)

end SpatialHash

/-- RenderOptimizer from src/game/utils/spatial_hash.py.  The screen
dimensions come from the Settings instance handed to the constructor. -/
structure RenderOptimizer where
  spatial_hash : SpatialHash
  visible_entities : List ℕ
  last_camera_pos : ℚ × ℚ
  camera_moved_threshold : ℚ
  screen_width : ℚ
  screen_height : ℚ
deriving DecidableEq

namespace RenderOptimizer

/-- Constructor: cell size 64, empty cache, last camera position (0, 0),
threshold 50. -/
def init (screen_width screen_height : ℚ) : RenderOptimizer :=
  { spatial_hash := SpatialHash.init 64
    visible_entities := []
    last_camera_pos := (0, 0)
    camera_moved_threshold := 50
    screen_width := screen_width
    screen_height := screen_height }

/-- The source removes and re-adds the entity using only its current
coordinates for both calls. -/
def update_entity_position (r : RenderOptimizer) (pos : ℕ → ℚ × ℚ) (e : ℕ) : RenderOptimizer :=
  { r with spatial_hash :=
      (r.spatial_hash.remove_entity e (pos e).1 (pos e).2).add_entity e (pos e).1 (pos e).2 }

/-- Recompute the visible set only when the camera moved strictly more than
the threshold along some axis. -/
def update_visible_entities (r : RenderOptimizer) (pos : ℕ → ℚ × ℚ)
    (camera_x camera_y : ℚ) : RenderOptimizer :=
  let dx := |camera_x - r.last_camera_pos.1|
  let dy := |camera_y - r.last_camera_pos.2|
  if dx > r.camera_moved_threshold ∨ dy > r.camera_moved_threshold then
    { r with
      visible_entities :=
        r.spatial_hash.get_visible_entities pos camera_x camera_y r.screen_width r.screen_height
      last_camera_pos := (camera_x, camera_y) }
  else r

end RenderOptimizer

section DictLemmas

theorem bucketAdd_mem (b : Bucket) (e a : ℕ) : a ∈ bucketAdd b e ↔ a ∈ b ∨ a = e := by
  unfold bucketAdd
  split
  · next hmem =>
    constructor
    · exact Or.inl
    · rintro (h | rfl)
      · exact h
      · exact hmem
  · simp [List.concat_eq_append]

theorem bucketDiscard_mem (b : Bucket) (e a : ℕ) : a ∈ bucketDiscard b e ↔ a ∈ b ∧ a ≠ e := by
  simp [bucketDiscard]

theorem dictLookup_dictSet (g : List (Cell × Bucket)) (k : Cell) (v : Bucket) (k' : Cell) :
    dictLookup (dictSet g k v) k' = if k' = k then some v else dictLookup g k' := by
  induction g with
  | nil =>
    simp only [dictSet, dictLookup]
    by_cases hk : k = k'
    · subst hk
      simp
    · rw [if_neg hk, if_neg fun h => hk h.symm]
  | cons kv rest ih =>
    simp only [dictSet]
    by_cases hkv : kv.1 = k
    · simp only [if_pos hkv, dictLookup]
      by_cases hk : k = k'
      · subst hk
        simp
      · have hk' : ¬k' = k := fun h => hk h.symm
        have hkv' : ¬kv.1 = k' := fun h => hk (hkv.symm.trans h)
        simp [hk, hk', hkv']
    · simp only [if_neg hkv, dictLookup]
      by_cases hk2 : kv.1 = k'
      · have hk : ¬k' = k := fun h => hkv (hk2.trans h)
        simp [hk2, hk]
      · simp [hk2, ih]

theorem dictLookup_dictDel (g : List (Cell × Bucket)) (k k' : Cell) :
    dictLookup (dictDel g k) k' = if k' = k then none else dictLookup g k' := by
  induction g with
  | nil =>
    by_cases hk : k' = k <;> simp [dictDel, dictLookup, hk]
  | cons kv rest ih =>
    simp only [dictDel]
    by_cases hkv : kv.1 = k
    · rw [if_pos hkv, ih]
      by_cases hk : k' = k
      · simp [hk]
      · have hne : ¬kv.1 = k' := fun h => hk (h.symm.trans hkv)
        simp [hk, dictLookup, hne]
    · rw [if_neg hkv]
      simp only [dictLookup]
      by_cases hk2 : kv.1 = k'
      · by_cases hk : k' = k
        · exact absurd (hk2.trans hk) hkv
        · simp [hk2, hk]
      · simp [hk2, ih]

theorem dictLookup_mem {g : List (Cell × Bucket)} {k : Cell} {v : Bucket}
    (h : dictLookup g k = some v) : (k, v) ∈ g := by
  induction g with
  | nil => simp [dictLookup] at h
  | cons kv rest ih =>
    obtain ⟨k1, v1⟩ := kv
    by_cases hkv : k1 = k
    · subst hkv
      simp [dictLookup] at h
      subst h
      exact List.mem_cons_self _ _
    · simp [dictLookup, hkv] at h
      exact List.mem_cons_of_mem _ (ih h)

theorem dictLookup_of_mem {g : List (Cell × Bucket)} {kv : Cell × Bucket}
    (hnd : (g.map Prod.fst).Nodup) (hm : kv ∈ g) : dictLookup g kv.1 = some kv.2 := by
  induction g with
  | nil => simp at hm
  | cons hd rest ih =>
    simp only [List.map_cons, List.nodup_cons] at hnd
    rcases List.mem_cons.mp hm with rfl | hm'
    · simp [dictLookup]
    · have hne : hd.1 ≠ kv.1 := by
        intro hEq
        exact hnd.1 (hEq ▸ List.mem_map_of_mem Prod.fst hm')
      simp [dictLookup, hne, ih hnd.2 hm']

end DictLemmas

section MembersLemmas

theorem SpatialHash.cell_size_add_entity (h : SpatialHash) (e : ℕ) (x y : ℚ) :
    (h.add_entity e x y).cell_size = h.cell_size := rfl

theorem SpatialHash.cell_size_remove_entity (h : SpatialHash) (e : ℕ) (x y : ℚ) :
    (h.remove_entity e x y).cell_size = h.cell_size := by
  rcases hl : dictLookup h.grid (h.get_cell_key x y) with _ | b
  · simp [SpatialHash.remove_entity, hl]
  · simp only [SpatialHash.remove_entity, hl]
    split <;> rfl

theorem SpatialHash.get_cell_key_eq {h h' : SpatialHash} (hc : h'.cell_size = h.cell_size) :
    h'.get_cell_key = h.get_cell_key := by
  funext x y
  unfold SpatialHash.get_cell_key
  rw [hc]

theorem SpatialHash.members_add_entity (h : SpatialHash) (e : ℕ) (x y : ℚ) (k : Cell) :
    (h.add_entity e x y).members k =
      if k = h.get_cell_key x y then bucketAdd (h.members k) e else h.members k := by
  simp only [SpatialHash.members, SpatialHash.add_entity, dictLookup_dictSet]
  split
  · next hk => simp [hk]
  · rfl

theorem SpatialHash.members_remove_entity (h : SpatialHash) (e : ℕ) (x y : ℚ) (k : Cell) :
    (h.remove_entity e x y).members k =
      if k = h.get_cell_key x y then bucketDiscard (h.members k) e else h.members k := by
  rcases hl : dictLookup h.grid (h.get_cell_key x y) with _ | b
  · simp only [SpatialHash.members, SpatialHash.remove_entity, hl]
    split
    · next hk =>
      simp [hk, hl, bucketDiscard]
    · rfl
  · simp only [SpatialHash.members, SpatialHash.remove_entity, hl]
    split
    · next hemp =>
      simp only [dictLookup_dictDel]
      rw [List.isEmpty_iff] at hemp
      split
      · next hk =>
        simp [hk, hl, hemp]
      · rfl
    · next hemp =>
      simp only [dictLookup_dictSet]
      split
      · next hk => simp [hk, hl]
      · rfl

end MembersLemmas

/-- Model of the Python process-global random module: an infinite stream of
raw draws plus a cursor.  Each call to a random primitive consumes the next
raw value. -/
structure RngState where
  stream : ℕ → ℕ
  idx : ℕ

/-- Python random.randint a b: one draw, uniform over the closed range
[a, b]; the next raw stream value is reduced into the (nonempty) range. -/
def randint (r : RngState) (a b : ℤ) : ℤ × RngState :=
  (a + (r.stream r.idx : ℤ) % (b - a + 1), ⟨r.stream, r.idx + 1⟩)

/-- Python random.choice over a nonempty list of strings: one draw. -/
def randchoice (r : RngState) (l : List String) : String × RngState :=
  (l.getD (r.stream r.idx % l.length) "", ⟨r.stream, r.idx + 1⟩)

/-- Biome thresholds of WorldGenerator, applied after normalizing each noise
channel from [-1, 1] to [0, 1]. -/
def get_terrain_type (height moisture temperature : ℚ) : String :=
  let height := (height + 1) / 2
  let moisture := (moisture + 1) / 2
  let temperature := (temperature + 1) / 2
  if height < 3 / 10 then "water"
  else if height < 4 / 10 then
    if moisture > 6 / 10 then "grass" else "desert"
  else if height < 7 / 10 then
    if moisture > 7 / 10 then "forest"
    else if moisture > 4 / 10 then "grass"
    else "desert"
  else if height < 85 / 100 then
    if temperature < 3 / 10 then "snow" else "mountain"
  else "mountain"

/-- Decision table of the specification, stated on already-normalized
values, used to compare the source classifier against the spec wording. -/
def biome_table (height moisture temperature : ℚ) : String :=
  if height < 3 / 10 then "water"
  else if height < 4 / 10 then
    if moisture > 6 / 10 then "grass" else "desert"
  else if height < 7 / 10 then
    if moisture > 7 / 10 then "forest"
    else if moisture > 4 / 10 then "grass"
    else "desert"
  else if height < 85 / 100 then
    if temperature < 3 / 10 then "snow" else "mountain"
  else "mountain"

/-- The external pnoise2 sampler with fixed octave parameters is a pure
function of the coordinates and the base seed; it is modelled as an oracle
argument so that terrain generation is a function of the seed only. -/
abbrev Noise := ℚ → ℚ → ℤ → ℚ

/-- Terrain grid generation: per tile, sample the three channels at the
fixed offsets (+0, +1000, +2000) with bases seed, seed + 1, seed + 2 and
classify. -/
def generate_terrain (pnoise : Noise) (seed world_width world_height tile_size : ℤ) :
    List (List String) :=
  let tiles_y := (world_height.fdiv tile_size).toNat
  let tiles_x := (world_width.fdiv tile_size).toNat
  (List.range tiles_y).map (fun y =>
    (List.range tiles_x).map (fun x =>
      let nx := (x : ℚ) / (tiles_x : ℚ) * 4
      let ny := (y : ℚ) / (tiles_y : ℚ) * 4
      let height := pnoise nx ny seed
      let moisture := pnoise (nx + 1000) (ny + 1000) (seed + 1)
      let temperature := pnoise (nx + 2000) (ny + 2000) (seed + 2)
      get_terrain_type height moisture temperature))

/-- One generated structure: origin and footprint in world pixels. -/
structure Structure where
  x : ℤ
  y : ℤ
  type : String
  width : ℤ
  height : ℤ
deriving DecidableEq

/-- Biome of the tile (x, y) in the terrain map. -/
def tile_biome (terrain_map : List (List String)) (x y : ℤ) : String :=
  (terrain_map.getD y.toNat []).getD x.toNat ""

/-- Loop body of structure generation: for each of the n candidates draw a
tile, accept it only when its biome is grass or forest, then draw the kind
and the footprint. -/
def generate_structures_loop (terrain_map : List (List String)) (tile_size tiles_x tiles_y : ℤ) :
    ℕ → RngState → List Structure × RngState
  | 0, r => ([], r)
  | n + 1, r =>
    let dx := randint r 0 (tiles_x - 1)
    let dy := randint dx.2 0 (tiles_y - 1)
    if tile_biome terrain_map dx.1 dy.1 = "grass" ∨ tile_biome terrain_map dx.1 dy.1 = "forest" then
      let dk := randchoice dy.2 ["ruins", "tower", "cave"]
      let dw := randint dk.2 2 5
      let dh := randint dw.2 2 5
      let rest := generate_structures_loop terrain_map tile_size tiles_x tiles_y n dh.2
      (⟨dx.1 * tile_size, dy.1 * tile_size, dk.1, dw.1 * tile_size, dh.1 * tile_size⟩ :: rest.1,
        rest.2)
    else
      generate_structures_loop terrain_map tile_size tiles_x tiles_y n dy.2

/-- Structure generation: draw a count in [5, 15], then run the candidate
loop; every draw comes from the global RNG stream. -/
def generate_structures (terrain_map : List (List String))
    (world_width world_height tile_size : ℤ) (r : RngState) : List Structure × RngState :=
  let dn := randint r 5 15
  generate_structures_loop terrain_map tile_size
    (world_width.fdiv tile_size) (world_height.fdiv tile_size) dn.1.toNat dn.2

/-- WorldGenerator state after construction; world dimensions are hardcoded
to 2000 in the source, tile_size comes from Settings (default 32). -/
structure WorldGenerator where
  seed : ℤ
  world_width : ℤ
  world_height : ℤ
  tile_size : ℤ
  terrain_map : List (List String)
  structures : List Structure

namespace WorldGenerator

/-- Constructor: the seed itself is drawn from the global RNG stream; the
terrain is computed from the seed through the noise oracle; structure
generation draws again from the global stream.  Item generation continues
drawing from the same global stream and calls the external ItemFactory; it
is not modelled further. -/
def init (pnoise : Noise) (tile_size : ℤ) (r : RngState) : WorldGenerator × RngState :=
  let ds := randint r 0 1000000
  let terrain := generate_terrain pnoise ds.1 2000 2000 tile_size
  let gs := generate_structures terrain 2000 2000 tile_size ds.2
  ({ seed := ds.1
     world_width := 2000
     world_height := 2000
     tile_size := tile_size
     terrain_map := terrain
     structures := gs.1 }, gs.2)

/-- Terrain lookup in pixel coordinates; out-of-range indices fall back to
the default biome.  The bound on tile_x is checked against row 0, which is
only read when the row bound already holds, as in the source. -/
def get_terrain_at (g : WorldGenerator) (x y : ℚ) : String :=
  let tile_x := ⌊x / (g.tile_size : ℚ)⌋
  let tile_y := ⌊y / (g.tile_size : ℚ)⌋
  if 0 ≤ tile_y ∧ tile_y < (g.terrain_map.length : ℤ) ∧
     0 ≤ tile_x ∧ tile_x < ((g.terrain_map.headD []).length : ℤ) then
    (g.terrain_map.getD tile_y.toNat []).getD tile_x.toNat "grass"
  else "grass"

end WorldGenerator

section QueryLemmas

theorem mem_intRangeAux (n : ℕ) : ∀ lo z : ℤ, z ∈ intRangeAux lo n ↔ lo ≤ z ∧ z < lo + n := by
  induction n with
  | zero =>
    intro lo z
    simp [intRangeAux]
  | succ n ih =>
    intro lo z
    rw [intRangeAux, List.mem_cons, ih]
    omega

theorem mem_intRange {lo hi z : ℤ} : z ∈ intRange lo hi ↔ lo ≤ z ∧ z ≤ hi := by
  rw [intRange, mem_intRangeAux]
  omega

theorem distLe_iff (dx dy r : ℚ) :
    distLe dx dy r = true ↔ 0 ≤ r ∧ dx * dx + dy * dy ≤ r * r := by
  simp [distLe]

end QueryLemmas

/-- C5: relocation that stays inside one cell leaves the grid unchanged;
relocation across a cell boundary removes the entity from the old cell,
adds it to the new cell, and leaves every other cell untouched. -/
theorem update_entity_position_frame (h : SpatialHash) (e : ℕ) (old_x old_y new_x new_y : ℚ) :
    (h.get_cell_key old_x old_y = h.get_cell_key new_x new_y →
      h.update_entity_position e old_x old_y new_x new_y = h) ∧
    (h.get_cell_key old_x old_y ≠ h.get_cell_key new_x new_y →
      (∀ k, k ≠ h.get_cell_key old_x old_y → k ≠ h.get_cell_key new_x new_y →
        (h.update_entity_position e old_x old_y new_x new_y).members k = h.members k) ∧
      (∀ a, a ∈ (h.update_entity_position e old_x old_y new_x new_y).members
            (h.get_cell_key old_x old_y) ↔
          a ∈ h.members (h.get_cell_key old_x old_y) ∧ a ≠ e) ∧
      (∀ a, a ∈ (h.update_entity_position e old_x old_y new_x new_y).members
            (h.get_cell_key new_x new_y) ↔
          a ∈ h.members (h.get_cell_key new_x new_y) ∨ a = e)) := by
  constructor
  · intro heq
    simp [SpatialHash.update_entity_position, heq]
  · intro hne
    have hupd : h.update_entity_position e old_x old_y new_x new_y =
        (h.remove_entity e old_x old_y).add_entity e new_x new_y := by
      simp [SpatialHash.update_entity_position, hne]
    have hks : (h.remove_entity e old_x old_y).get_cell_key = h.get_cell_key :=
      SpatialHash.get_cell_key_eq (SpatialHash.cell_size_remove_entity h e old_x old_y)
    have hmem : ∀ k, (h.update_entity_position e old_x old_y new_x new_y).members k =
        if k = h.get_cell_key new_x new_y then
          bucketAdd ((h.remove_entity e old_x old_y).members k) e
        else (h.remove_entity e old_x old_y).members k := by
      intro k
      rw [hupd, SpatialHash.members_add_entity, hks]
    refine ⟨?_, ?_, ?_⟩
    · intro k hko hkn
      rw [hmem k, if_neg hkn, SpatialHash.members_remove_entity, if_neg hko]
    · intro a
      rw [hmem _, if_neg hne, SpatialHash.members_remove_entity, if_pos rfl,
        bucketDiscard_mem]
    · intro a
      rw [hmem _, if_pos rfl, bucketAdd_mem, SpatialHash.members_remove_entity,
        if_neg (fun hc => hne hc.symm)]

/-- Witness for C5 at cell size 64: moving entity 5 from (10, 10) to
(20, 20) stays in cell (0, 0) and changes nothing; moving it from (10, 10)
to (100, 100) crosses into cell (1, 1) and the entity lands there. -/
theorem update_entity_position_frame_witness :
    SpatialHash.update_entity_position ⟨64, [((0, 0), [5])]⟩ 5 10 10 20 20 =
      ⟨64, [((0, 0), [5])]⟩ ∧
    5 ∈ (SpatialHash.update_entity_position ⟨64, [((0, 0), [5])]⟩ 5 10 10 100 100).members
        (1, 1) := by
  constructor
  · exact (update_entity_position_frame ⟨64, [((0, 0), [5])]⟩ 5 10 10 20 20).1
      (by norm_num [SpatialHash.get_cell_key, Prod.mk.injEq, Int.floor_eq_iff])
  · have hne : SpatialHash.get_cell_key ⟨64, [((0, 0), [5])]⟩ 10 10 ≠
        SpatialHash.get_cell_key ⟨64, [((0, 0), [5])]⟩ 100 100 := by
      norm_num [SpatialHash.get_cell_key, Prod.mk.injEq, Int.floor_eq_iff]
    have hkey : SpatialHash.get_cell_key ⟨64, [((0, 0), [5])]⟩ 100 100 = (1, 1) := by
      norm_num [SpatialHash.get_cell_key, Prod.mk.injEq, Int.floor_eq_iff]
    have := ((update_entity_position_frame ⟨64, [((0, 0), [5])]⟩ 5 10 10 100 100).2 hne).2.2 5
    rw [hkey] at this
    exact this.mpr (Or.inr rfl)

/-- C10: RenderOptimizer.update_entity_position removes and re-adds the
entity at its current coordinates, so only the cell of the current position
can change; an entity whose stale bucket is a different cell stays there and
is afterwards a member of both cells. -/
theorem render_update_entity_position_cells (r : RenderOptimizer) (pos : ℕ → ℚ × ℚ) (e : ℕ) :
    (∀ k, k ≠ r.spatial_hash.get_cell_key (pos e).1 (pos e).2 →
      (r.update_entity_position pos e).spatial_hash.members k = r.spatial_hash.members k) ∧
    e ∈ (r.update_entity_position pos e).spatial_hash.members
        (r.spatial_hash.get_cell_key (pos e).1 (pos e).2) ∧
    (∀ c0, c0 ≠ r.spatial_hash.get_cell_key (pos e).1 (pos e).2 →
      e ∈ r.spatial_hash.members c0 →
      e ∈ (r.update_entity_position pos e).spatial_hash.members c0) := by
  have hks : (r.spatial_hash.remove_entity e (pos e).1 (pos e).2).get_cell_key =
      r.spatial_hash.get_cell_key :=
    SpatialHash.get_cell_key_eq (SpatialHash.cell_size_remove_entity _ e (pos e).1 (pos e).2)
  have hmem : ∀ k, (r.update_entity_position pos e).spatial_hash.members k =
      if k = r.spatial_hash.get_cell_key (pos e).1 (pos e).2 then
        bucketAdd ((r.spatial_hash.remove_entity e (pos e).1 (pos e).2).members k) e
      else (r.spatial_hash.remove_entity e (pos e).1 (pos e).2).members k := by
    intro k
    show ((r.spatial_hash.remove_entity e (pos e).1 (pos e).2).add_entity
        e (pos e).1 (pos e).2).members k = _
    rw [SpatialHash.members_add_entity, hks]
  refine ⟨?_, ?_, ?_⟩
  · intro k hk
    rw [hmem k, if_neg hk, SpatialHash.members_remove_entity, if_neg hk]
  · rw [hmem _, if_pos rfl, bucketAdd_mem]
    exact Or.inr rfl
  · intro c0 hc0 hmem0
    rw [hmem c0, if_neg hc0, SpatialHash.members_remove_entity, if_neg hc0]
    exact hmem0

/-- Witness for C10: entity 7 was indexed under cell (0, 0) but now sits at
(100, 100), which is cell (1, 1); after the update it is a member of both
cells. -/
theorem render_update_entity_position_cells_witness :
    7 ∈ (RenderOptimizer.update_entity_position
        ⟨⟨64, [((0, 0), [7])]⟩, [], (0, 0), 50, 1200, 800⟩ (fun _ => (100, 100)) 7).spatial_hash.members
        (0, 0) ∧
    7 ∈ (RenderOptimizer.update_entity_position
        ⟨⟨64, [((0, 0), [7])]⟩, [], (0, 0), 50, 1200, 800⟩ (fun _ => (100, 100)) 7).spatial_hash.members
        (1, 1) := by
  have hkey : SpatialHash.get_cell_key ⟨64, [((0, 0), [7])]⟩ 100 100 = (1, 1) := by
    norm_num [SpatialHash.get_cell_key, Prod.mk.injEq, Int.floor_eq_iff]
  have hall := render_update_entity_position_cells
    ⟨⟨64, [((0, 0), [7])]⟩, [], (0, 0), 50, 1200, 800⟩ (fun _ => (100, 100)) 7
  constructor
  · refine hall.2.2 (0, 0) ?_ (by decide)
    rw [hkey]
    decide
  · have := hall.2.1
    rwa [hkey] at this

/-- Membership characterization of the radius query: the entity came from a
bucket whose cell lies in the bounding square of the radius, and passed the
exact distance filter. -/
theorem mem_get_entities_in_radius (h : SpatialHash) (pos : ℕ → ℚ × ℚ) (x y radius : ℚ) (e : ℕ) :
    e ∈ h.get_entities_in_radius pos x y radius ↔
      ∃ c : Cell,
        (⌊(x - radius) / (h.cell_size : ℚ)⌋ ≤ c.1 ∧ c.1 ≤ ⌊(x + radius) / (h.cell_size : ℚ)⌋) ∧
        (⌊(y - radius) / (h.cell_size : ℚ)⌋ ≤ c.2 ∧ c.2 ≤ ⌊(y + radius) / (h.cell_size : ℚ)⌋) ∧
        e ∈ h.members c ∧
        distLe ((pos e).1 - x) ((pos e).2 - y) radius = true := by
  simp only [SpatialHash.get_entities_in_radius, List.mem_flatMap, List.mem_filter, mem_intRange]
  constructor
  · rintro ⟨cx, ⟨hcx1, hcx2⟩, cy, ⟨hcy1, hcy2⟩, hmem, hd⟩
    exact ⟨(cx, cy), ⟨hcx1, hcx2⟩, ⟨hcy1, hcy2⟩, hmem, hd⟩
  · rintro ⟨⟨cx, cy⟩, ⟨hcx1, hcx2⟩, ⟨hcy1, hcy2⟩, hmem, hd⟩
    exact ⟨cx, ⟨hcx1, hcx2⟩, cy, ⟨hcy1, hcy2⟩, hmem, hd⟩

/-- C3: under the representation invariant (every stored entity sits in the
bucket of its current position, dict keys unique) the radius query with a
nonnegative radius returns exactly the entities the brute force exact
distance scan over all stored entities returns. -/
theorem get_entities_in_radius_eq_brute_force
    (h : SpatialHash) (pos : ℕ → ℚ × ℚ) (x y radius : ℚ)
    (hcs : 0 < h.cell_size)
    (hnd : (h.grid.map Prod.fst).Nodup)
    (hbuckets : ∀ kv ∈ h.grid, ∀ e ∈ kv.2, kv.1 = h.get_cell_key (pos e).1 (pos e).2)
    (hr : 0 ≤ radius) (e : ℕ) :
    e ∈ h.get_entities_in_radius pos x y radius ↔
      e ∈ h.brute_force_radius pos x y radius := by
  have hcsq : (0 : ℚ) < (h.cell_size : ℚ) := by exact_mod_cast hcs
  rw [mem_get_entities_in_radius]
  simp only [SpatialHash.brute_force_radius, SpatialHash.all_entities,
    List.mem_filter, List.mem_flatMap]
  constructor
  · rintro ⟨c, _, _, hmem, hd⟩
    rcases hl : dictLookup h.grid c with _ | b
    · rw [SpatialHash.members, hl] at hmem
      simp at hmem
    · rw [SpatialHash.members, hl] at hmem
      exact ⟨⟨(c, b), dictLookup_mem hl, hmem⟩, hd⟩
  · rintro ⟨⟨kv, hkv, he⟩, hd⟩
    have hkey := hbuckets kv hkv e he
    obtain ⟨hr0, hsq⟩ := (distLe_iff _ _ _).mp hd
    set ex := (pos e).1 with hex
    set ey := (pos e).2 with hey
    have hdx1 : x - radius ≤ ex := by nlinarith [mul_self_nonneg (ey - y), mul_self_nonneg (ex - x + radius)]
    have hdx2 : ex ≤ x + radius := by nlinarith [mul_self_nonneg (ey - y), mul_self_nonneg (ex - x - radius)]
    have hdy1 : y - radius ≤ ey := by nlinarith [mul_self_nonneg (ex - x), mul_self_nonneg (ey - y + radius)]
    have hdy2 : ey ≤ y + radius := by nlinarith [mul_self_nonneg (ex - x), mul_self_nonneg (ey - y - radius)]
    refine ⟨kv.1, ?_, ?_, ?_, hd⟩
    · rw [hkey]
      constructor
      · exact Int.floor_le_floor (by rw [div_le_div_iff_of_pos_right hcsq]; exact hdx1)
      · exact Int.floor_le_floor (by rw [div_le_div_iff_of_pos_right hcsq]; exact hdx2)
    · rw [hkey]
      constructor
      · exact Int.floor_le_floor (by rw [div_le_div_iff_of_pos_right hcsq]; exact hdy1)
      · exact Int.floor_le_floor (by rw [div_le_div_iff_of_pos_right hcsq]; exact hdy2)
    · rw [SpatialHash.members, dictLookup_of_mem hnd hkv]
      exact he

/-- Entity positions for the C3 witness: entity 1 at (10, 10), entity 2 at
(100, 100). -/
def posEx : ℕ → ℚ × ℚ := fun n => if n = 1 then (10, 10) else (100, 100)

/-- Witness for C3 on the spec example layout: entities 1 and 2 in their
cells at cell size 64, query centre (12, 12) radius 10. -/
theorem get_entities_in_radius_eq_brute_force_witness :
    1 ∈ SpatialHash.get_entities_in_radius ⟨64, [((0, 0), [1]), ((1, 1), [2])]⟩ posEx 12 12 10 ↔
      1 ∈ SpatialHash.brute_force_radius ⟨64, [((0, 0), [1]), ((1, 1), [2])]⟩ posEx 12 12 10 := by
  apply get_entities_in_radius_eq_brute_force
  · decide
  · decide
  · intro kv hkv e he
    simp only [List.mem_cons, List.not_mem_nil, or_false] at hkv
    rcases hkv with rfl | rfl
    · simp only [List.mem_singleton] at he
      subst he
      show ((0 : ℤ), (0 : ℤ)) = _
      norm_num [SpatialHash.get_cell_key, posEx, Prod.mk.injEq, Int.floor_eq_iff]
    · simp only [List.mem_singleton] at he
      subst he
      show ((1 : ℤ), (1 : ℤ)) = _
      norm_num [SpatialHash.get_cell_key, posEx, Prod.mk.injEq, Int.floor_eq_iff]
  · norm_num

/-- The three mutating operations of the spatial hash, as invoked by
callers. -/
inductive GridOp where
  | add (e : ℕ) (x y : ℚ)
  | remove (e : ℕ) (x y : ℚ)
  | move (e : ℕ) (old_x old_y new_x new_y : ℚ)

def SpatialHash.apply_op (h : SpatialHash) : GridOp → SpatialHash
  | .add e x y => h.add_entity e x y
  | .remove e x y => h.remove_entity e x y
  | .move e ox oy nx ny => h.update_entity_position e ox oy nx ny

def SpatialHash.apply_ops (h : SpatialHash) (ops : List GridOp) : SpatialHash :=
  ops.foldl SpatialHash.apply_op h

/-- Last position reported to the grid for each entity, none when the
entity is not currently held. -/
abbrev Track := ℕ → Option (ℚ × ℚ)

def track_op (t : Track) : GridOp → Track
  | .add e x y => fun a => if a = e then some (x, y) else t a
  | .remove e _ _ => fun a => if a = e then none else t a
  | .move e _ _ nx ny => fun a => if a = e then some (nx, ny) else t a

def track_ops (t : Track) (ops : List GridOp) : Track :=
  ops.foldl track_op t

/-- Caller discipline: add only entities not currently held, and pass the
true previous position to remove and to relocate. -/
def op_wf (t : Track) : GridOp → Prop
  | .add e _ _ => t e = none
  | .remove e x y => t e = some (x, y)
  | .move e ox oy _ _ => t e = some (ox, oy)

def ops_wf : Track → List GridOp → Prop
  | _, [] => True
  | t, op :: rest => op_wf t op ∧ ops_wf (track_op t op) rest

/-- Abstraction invariant: an entity is a member of a cell exactly when it
is held and the cell is the one of its last reported position. -/
def hash_inv (h : SpatialHash) (t : Track) : Prop :=
  ∀ a k, a ∈ h.members k ↔ ∃ p : ℚ × ℚ, t a = some p ∧ k = h.get_cell_key p.1 p.2

theorem SpatialHash.cell_size_apply_op (h : SpatialHash) (op : GridOp) :
    (h.apply_op op).cell_size = h.cell_size := by
  cases op with
  | add e x y => rfl
  | remove e x y => exact SpatialHash.cell_size_remove_entity h e x y
  | move e ox oy nx ny =>
    show (h.update_entity_position e ox oy nx ny).cell_size = h.cell_size
    unfold SpatialHash.update_entity_position
    split
    · rw [SpatialHash.cell_size_add_entity, SpatialHash.cell_size_remove_entity]
    · rfl

theorem SpatialHash.cell_size_apply_ops (h : SpatialHash) (ops : List GridOp) :
    (h.apply_ops ops).cell_size = h.cell_size := by
  induction ops generalizing h with
  | nil => rfl
  | cons op rest ih => exact (ih (h.apply_op op)).trans (SpatialHash.cell_size_apply_op h op)

theorem hash_inv_apply_add {h : SpatialHash} {t : Track} (hinv : hash_inv h t)
    {e : ℕ} {x y : ℚ} (he : t e = none) :
    hash_inv (h.add_entity e x y) (track_op t (.add e x y)) := by
  intro a k
  rw [SpatialHash.members_add_entity,
    SpatialHash.get_cell_key_eq (SpatialHash.cell_size_add_entity h e x y)]
  simp only [track_op]
  by_cases hae : a = e
  · subst hae
    simp only [if_pos rfl]
    by_cases hk : k = h.get_cell_key x y
    · rw [if_pos hk]
      constructor
      · intro _
        exact ⟨(x, y), rfl, hk⟩
      · intro _
        exact (bucketAdd_mem _ _ _).mpr (Or.inr rfl)
    · rw [if_neg hk]
      constructor
      · intro hmem
        obtain ⟨p, hp, hkp⟩ := (hinv a k).mp hmem
        rw [he] at hp
        exact absurd hp (by simp)
      · rintro ⟨p, hp, hkp⟩
        cases Option.some.inj hp
        exact absurd hkp hk
  · simp only [if_neg hae]
    by_cases hk : k = h.get_cell_key x y
    · rw [if_pos hk, bucketAdd_mem]
      constructor
      · rintro (hmem | hae2)
        · exact (hinv a k).mp hmem
        · exact absurd hae2 hae
      · intro hex
        exact Or.inl ((hinv a k).mpr hex)
    · rw [if_neg hk]
      exact hinv a k

theorem hash_inv_apply_remove {h : SpatialHash} {t : Track} (hinv : hash_inv h t)
    {e : ℕ} {x y : ℚ} (he : t e = some (x, y)) :
    hash_inv (h.remove_entity e x y) (track_op t (.remove e x y)) := by
  intro a k
  rw [SpatialHash.members_remove_entity,
    SpatialHash.get_cell_key_eq (SpatialHash.cell_size_remove_entity h e x y)]
  simp only [track_op]
  by_cases hae : a = e
  · subst hae
    simp only [if_pos rfl]
    constructor
    · intro hmem
      exfalso
      by_cases hk : k = h.get_cell_key x y
      · rw [if_pos hk, bucketDiscard_mem] at hmem
        exact hmem.2 rfl
      · rw [if_neg hk] at hmem
        obtain ⟨p, hp, hkp⟩ := (hinv a k).mp hmem
        rw [he] at hp
        cases Option.some.inj hp
        exact hk hkp
    · rintro ⟨p, hp, _⟩
      simp at hp
  · simp only [if_neg hae]
    by_cases hk : k = h.get_cell_key x y
    · rw [if_pos hk, bucketDiscard_mem]
      constructor
      · rintro ⟨hmem, _⟩
        exact (hinv a k).mp hmem
      · intro hex
        exact ⟨(hinv a k).mpr hex, hae⟩
    · rw [if_neg hk]
      exact hinv a k

theorem hash_inv_apply_move {h : SpatialHash} {t : Track} (hinv : hash_inv h t)
    {e : ℕ} {ox oy nx ny : ℚ} (he : t e = some (ox, oy)) :
    hash_inv (h.update_entity_position e ox oy nx ny) (track_op t (.move e ox oy nx ny)) := by
  by_cases hcell : h.get_cell_key ox oy = h.get_cell_key nx ny
  · have hupd : h.update_entity_position e ox oy nx ny = h := by
      simp [SpatialHash.update_entity_position, hcell]
    rw [hupd]
    intro a k
    simp only [track_op]
    by_cases hae : a = e
    · subst hae
      simp only [if_pos rfl]
      rw [hinv a, he]
      constructor
      · rintro ⟨p, hp, hkp⟩
        cases Option.some.inj hp
        exact ⟨(nx, ny), rfl, by rw [hkp, hcell]⟩
      · rintro ⟨p, hp, hkp⟩
        cases Option.some.inj hp
        exact ⟨(ox, oy), rfl, by rw [hkp, hcell]⟩
    · simp only [if_neg hae]
      exact hinv a k
  · have hupd : h.update_entity_position e ox oy nx ny =
        (h.remove_entity e ox oy).add_entity e nx ny := by
      simp [SpatialHash.update_entity_position, hcell]
    have h1 := hash_inv_apply_remove hinv he
    have he2 : track_op t (.remove e ox oy) e = none := by
      simp [track_op]
    have h2 := hash_inv_apply_add h1 (x := nx) (y := ny) he2
    rw [hupd]
    intro a k
    rw [h2 a k]
    simp only [track_op]
    by_cases hae : a = e <;> simp [hae]

theorem hash_inv_apply_ops : ∀ (ops : List GridOp) (h : SpatialHash) (t : Track),
    hash_inv h t → ops_wf t ops → hash_inv (h.apply_ops ops) (track_ops t ops) := by
  intro ops
  induction ops with
  | nil =>
    intro h t hinv _
    exact hinv
  | cons op rest ih =>
    intro h t hinv hwf
    have hwf' : op_wf t op ∧ ops_wf (track_op t op) rest := hwf
    have hstep : hash_inv (h.apply_op op) (track_op t op) := by
      cases op with
      | add e x y => exact hash_inv_apply_add hinv hwf'.1
      | remove e x y => exact hash_inv_apply_remove hinv hwf'.1
      | move e ox oy nx ny => exact hash_inv_apply_move hinv hwf'.1
    exact ih (h.apply_op op) (track_op t op) hstep hwf'.2

/-- C4: starting from an empty spatial hash, after any well-formed sequence
of add, remove and relocate operations (the caller always passing the true
previous position), an entity is a member of a cell exactly when it is
currently held and the cell is the one of its last reported position — so a
held entity is in exactly that one cell, never zero, never two. -/
theorem apply_ops_exactly_one_cell (cs : ℤ) (hcs : 0 < cs) (ops : List GridOp)
    (hwf : ops_wf (fun _ => none) ops) (a : ℕ) (k : Cell) :
    a ∈ ((SpatialHash.init cs).apply_ops ops).members k ↔
      ∃ p : ℚ × ℚ, track_ops (fun _ => none) ops a = some p ∧
        k = ((SpatialHash.init cs).apply_ops ops).get_cell_key p.1 p.2 := by
  have hbase : hash_inv (SpatialHash.init cs) (fun _ => none) := by
    intro a k
    constructor
    · intro hmem
      simp [SpatialHash.members, SpatialHash.init, dictLookup] at hmem
    · rintro ⟨p, hp, _⟩
      simp at hp
  exact hash_inv_apply_ops ops _ _ hbase hwf a k

/-- Operation sequence for the C4 witness: entity 1 is added at (10, 10)
and relocated to (100, 100). -/
def opsEx : List GridOp := [GridOp.add 1 10 10, GridOp.move 1 10 10 100 100]

/-- Witness for C4: after the example sequence, entity 1 sits in cell
(1, 1), the cell of its last reported position at cell size 64. -/
theorem apply_ops_exactly_one_cell_witness :
    1 ∈ ((SpatialHash.init 64).apply_ops opsEx).members (1, 1) := by
  have hiff := apply_ops_exactly_one_cell 64 (by norm_num) opsEx
    ⟨rfl, rfl, trivial⟩ 1 (1, 1)
  apply hiff.mpr
  refine ⟨(100, 100), rfl, ?_⟩
  rw [SpatialHash.get_cell_key_eq (SpatialHash.cell_size_apply_ops (SpatialHash.init 64) opsEx)]
  symm
  norm_num [SpatialHash.get_cell_key, SpatialHash.init, Prod.mk.injEq, Int.floor_eq_iff]

/-- C2: the classifier normalizes each channel via (v + 1) / 2 and then
returns exactly the biome of the ordered threshold table on the normalized
values; in particular normalized height 0 with moisture 0.8 yields water
for every temperature. -/
theorem get_terrain_type_matches_table :
    (∀ height moisture temperature : ℚ,
      get_terrain_type height moisture temperature =
        biome_table ((height + 1) / 2) ((moisture + 1) / 2) ((temperature + 1) / 2)) ∧
    (∀ temperature : ℚ, biome_table 0 (8 / 10) temperature = "water") := by
  constructor
  · intro height moisture temperature
    rfl
  · intro temperature
    norm_num [biome_table]

/-- C7: a coordinate pair whose tile index falls outside the grid, in
particular any negative x with a positive tile size, yields the default
biome grass; an in-range index returns the stored tile. -/
theorem get_terrain_at_default (g : WorldGenerator) (x y : ℚ) :
    (¬(0 ≤ ⌊y / (g.tile_size : ℚ)⌋ ∧ ⌊y / (g.tile_size : ℚ)⌋ < (g.terrain_map.length : ℤ) ∧
        0 ≤ ⌊x / (g.tile_size : ℚ)⌋ ∧
        ⌊x / (g.tile_size : ℚ)⌋ < ((g.terrain_map.headD []).length : ℤ)) →
      g.get_terrain_at x y = "grass") ∧
    ((0 ≤ ⌊y / (g.tile_size : ℚ)⌋ ∧ ⌊y / (g.tile_size : ℚ)⌋ < (g.terrain_map.length : ℤ) ∧
        0 ≤ ⌊x / (g.tile_size : ℚ)⌋ ∧
        ⌊x / (g.tile_size : ℚ)⌋ < ((g.terrain_map.headD []).length : ℤ)) →
      g.get_terrain_at x y =
        (g.terrain_map.getD ⌊y / (g.tile_size : ℚ)⌋.toNat []).getD
          ⌊x / (g.tile_size : ℚ)⌋.toNat "grass") ∧
    (0 < g.tile_size → x < 0 → g.get_terrain_at x y = "grass") := by
  refine ⟨?_, ?_, ?_⟩
  · intro hcond
    simp only [WorldGenerator.get_terrain_at]
    rw [if_neg hcond]
  · intro hcond
    simp only [WorldGenerator.get_terrain_at]
    rw [if_pos hcond]
  · intro hts hx
    have hq : x / (g.tile_size : ℚ) < 0 :=
      div_neg_of_neg_of_pos hx (by exact_mod_cast hts)
    have hfl : ¬(0 : ℤ) ≤ ⌊x / (g.tile_size : ℚ)⌋ := by
      rw [Int.floor_nonneg]
      exact not_le.mpr hq
    simp only [WorldGenerator.get_terrain_at]
    rw [if_neg (fun hcond => hfl hcond.2.2.1)]

/-- Concrete generator for the C7 witness: a single water tile, tile size
32. -/
def worldEx : WorldGenerator :=
  { seed := 0
    world_width := 2000
    world_height := 2000
    tile_size := 32
    terrain_map := [["water"]]
    structures := [] }

/-- Witness for C7: on the one-tile world, the negative coordinate falls
back to grass and the in-range coordinate returns the stored water tile. -/
theorem get_terrain_at_default_witness :
    WorldGenerator.get_terrain_at worldEx (-1) 0 = "grass" ∧
    WorldGenerator.get_terrain_at worldEx 0 0 = "water" := by
  constructor
  · exact (get_terrain_at_default worldEx (-1) 0).2.2 (by norm_num [worldEx]) (by norm_num)
  · have hfl : ⌊(0 : ℚ) / ((worldEx.tile_size : ℤ) : ℚ)⌋ = 0 := by
      norm_num [worldEx]
    have h := (get_terrain_at_default worldEx 0 0).2.1 (by rw [hfl]; norm_num [worldEx])
    rw [hfl] at h
    simpa [worldEx] using h

/-- C8 counterexample: constructing the spatial hash with cell_size 0
completes normally and stores the invalid size — there is no configuration
error, contradicting the fail-fast claim. -/
theorem spatial_hash_init_no_validation_counterexample :
    SpatialHash.init 0 = { cell_size := 0, grid := [] } := rfl

/-- C8 amended: the spatial hash constructor performs no validation at all;
for every cell_size, including zero and negative values, construction
completes and stores the given value with an empty grid, and any failure
surfaces only later at use.  The world generator likewise stores tile_size
without a fail-fast configuration check. -/
theorem spatial_hash_init_no_validation (cell_size : ℤ) :
    (SpatialHash.init cell_size).cell_size = cell_size ∧
    (SpatialHash.init cell_size).grid = [] :=
  ⟨rfl, rfl⟩

/-- C6 counterexample: with the default threshold 50, a camera delta of
exactly 50 performs no recompute — the state, including the stored camera
position, is unchanged, while the claim demands a recompute storing
(50, 0). -/
theorem update_visible_entities_at_threshold_counterexample :
    RenderOptimizer.update_visible_entities (RenderOptimizer.init 1200 800)
        (fun _ => (0, 0)) 50 0 = RenderOptimizer.init 1200 800 ∧
    (RenderOptimizer.init 1200 800).last_camera_pos ≠ ((50 : ℚ), (0 : ℚ)) := by
  constructor
  · simp only [RenderOptimizer.update_visible_entities, RenderOptimizer.init]
    norm_num
  · simp only [RenderOptimizer.init]
    norm_num [Prod.ext_iff]

/-- C6 amended: the update is a no-op when both camera deltas are at most
the threshold; when either delta strictly exceeds the threshold it performs
the rectangle query at the new camera position, replaces the cache with its
result, and stores the new camera position. -/
theorem update_visible_entities_gating (r : RenderOptimizer) (pos : ℕ → ℚ × ℚ)
    (camera_x camera_y : ℚ) :
    (|camera_x - r.last_camera_pos.1| ≤ r.camera_moved_threshold ∧
        |camera_y - r.last_camera_pos.2| ≤ r.camera_moved_threshold →
      r.update_visible_entities pos camera_x camera_y = r) ∧
    (r.camera_moved_threshold < |camera_x - r.last_camera_pos.1| ∨
        r.camera_moved_threshold < |camera_y - r.last_camera_pos.2| →
      r.update_visible_entities pos camera_x camera_y =
        { r with
          visible_entities := r.spatial_hash.get_visible_entities pos camera_x camera_y
            r.screen_width r.screen_height
          last_camera_pos := (camera_x, camera_y) }) := by
  constructor
  · rintro ⟨h1, h2⟩
    have hcond : ¬(|camera_x - r.last_camera_pos.1| > r.camera_moved_threshold ∨
        |camera_y - r.last_camera_pos.2| > r.camera_moved_threshold) := by
      push_neg
      exact ⟨h1, h2⟩
    simp only [RenderOptimizer.update_visible_entities]
    rw [if_neg hcond]
  · intro hgt
    simp only [RenderOptimizer.update_visible_entities]
    rw [if_pos hgt]

/-- Witness for C6: camera deltas of 10 leave the tracker unchanged, a
delta of 100 replaces the cache and stores the camera position. -/
theorem update_visible_entities_gating_witness :
    RenderOptimizer.update_visible_entities (RenderOptimizer.init 1200 800) posEx 10 10 =
      RenderOptimizer.init 1200 800 ∧
    RenderOptimizer.update_visible_entities (RenderOptimizer.init 1200 800) posEx 100 0 =
      { RenderOptimizer.init 1200 800 with
        visible_entities := (RenderOptimizer.init 1200 800).spatial_hash.get_visible_entities
          posEx 100 0 1200 800
        last_camera_pos := (100, 0) } := by
  constructor
  · exact (update_visible_entities_gating (RenderOptimizer.init 1200 800) posEx 10 10).1
      (by norm_num [RenderOptimizer.init])
  · exact (update_visible_entities_gating (RenderOptimizer.init 1200 800) posEx 100 0).2
      (by norm_num [RenderOptimizer.init])

/-- RNG stream whose raw draws are all 0. -/
def rngA : RngState := ⟨fun _ => 0, 0⟩

/-- RNG stream drawing 0 first (the seed draw) and 3 afterwards. -/
def rngB : RngState := ⟨fun n => if n = 0 then 0 else 3, 0⟩

/-- Noise oracle returning 0 everywhere; every tile then classifies as
grass. -/
def noise0 : Noise := fun _ _ _ => 0

theorem get_terrain_type_zero : get_terrain_type 0 0 0 = "grass" := by
  norm_num [get_terrain_type]

/-- With the zero noise oracle and tile size 2000 the terrain map is the
single grass tile, for every seed. -/
theorem generate_terrain_noise0 (seed : ℤ) :
    generate_terrain noise0 seed 2000 2000 2000 = [["grass"]] := by
  have h : generate_terrain noise0 seed 2000 2000 2000 = [[get_terrain_type 0 0 0]] := rfl
  rw [h, get_terrain_type_zero]

theorem world_generator_structures_rngA :
    (WorldGenerator.init noise0 2000 rngA).1.structures =
      (generate_structures [["grass"]] 2000 2000 2000 ⟨rngA.stream, 1⟩).1 := by
  show (generate_structures (generate_terrain noise0 (randint rngA 0 1000000).1 2000 2000 2000)
      2000 2000 2000 (randint rngA 0 1000000).2).1 = _
  rw [generate_terrain_noise0]
  rfl

theorem world_generator_structures_rngB :
    (WorldGenerator.init noise0 2000 rngB).1.structures =
      (generate_structures [["grass"]] 2000 2000 2000 ⟨rngB.stream, 1⟩).1 := by
  show (generate_structures (generate_terrain noise0 (randint rngB 0 1000000).1 2000 2000 2000)
      2000 2000 2000 (randint rngB 0 1000000).2).1 = _
  rw [generate_terrain_noise0]
  rfl

/-- C1 counterexample: two constructions that draw the same seed (both 0)
from different global RNG streams produce different structure lists — the
structure draws come from the global stream, not from the seed. -/
theorem world_generator_not_seed_deterministic_counterexample :
    (WorldGenerator.init noise0 2000 rngA).1.seed =
      (WorldGenerator.init noise0 2000 rngB).1.seed ∧
    (WorldGenerator.init noise0 2000 rngA).1.structures ≠
      (WorldGenerator.init noise0 2000 rngB).1.structures := by
  constructor
  · decide
  · rw [world_generator_structures_rngA, world_generator_structures_rngB]
    decide

/-- C1 amended: only the terrain map is a function of the drawn seed (via
the pure noise oracle): constructions whose seed draws agree have identical
terrain maps whatever the rest of their global RNG streams; the structure
and item draws come from the unseeded global stream, so the structure and
item lists are not reproducible from the seed. -/
theorem world_generator_terrain_determined_by_seed
    (pnoise : Noise) (tile_size : ℤ) (r1 r2 : RngState)
    (hseed : (WorldGenerator.init pnoise tile_size r1).1.seed =
      (WorldGenerator.init pnoise tile_size r2).1.seed) :
    (WorldGenerator.init pnoise tile_size r1).1.terrain_map =
      (WorldGenerator.init pnoise tile_size r2).1.terrain_map := by
  have h1 : (WorldGenerator.init pnoise tile_size r1).1.terrain_map =
      generate_terrain pnoise ((WorldGenerator.init pnoise tile_size r1).1.seed)
        2000 2000 tile_size := rfl
  have h2 : (WorldGenerator.init pnoise tile_size r2).1.terrain_map =
      generate_terrain pnoise ((WorldGenerator.init pnoise tile_size r2).1.seed)
        2000 2000 tile_size := rfl
  rw [h1, h2, hseed]

/-- Witness for the amended C1: the two example streams draw the same seed,
so their terrain maps agree. -/
theorem world_generator_terrain_determined_by_seed_witness :
    (WorldGenerator.init noise0 2000 rngA).1.terrain_map =
      (WorldGenerator.init noise0 2000 rngB).1.terrain_map :=
  world_generator_terrain_determined_by_seed noise0 2000 rngA rngB (by decide)

theorem generate_structures_loop_biome (terrain_map : List (List String))
    (tile_size tiles_x tiles_y : ℤ) :
    ∀ (n : ℕ) (r : RngState) (s : Structure),
      s ∈ (generate_structures_loop terrain_map tile_size tiles_x tiles_y n r).1 →
      ∃ tx ty : ℤ, s.x = tx * tile_size ∧ s.y = ty * tile_size ∧
        (tile_biome terrain_map tx ty = "grass" ∨ tile_biome terrain_map tx ty = "forest") := by
  intro n
  induction n with
  | zero =>
    intro r s hs
    simp [generate_structures_loop] at hs
  | succ n ih =>
    intro r s hs
    simp only [generate_structures_loop] at hs
    by_cases hcond :
        tile_biome terrain_map (randint r 0 (tiles_x - 1)).1
          (randint (randint r 0 (tiles_x - 1)).2 0 (tiles_y - 1)).1 = "grass" ∨
        tile_biome terrain_map (randint r 0 (tiles_x - 1)).1
          (randint (randint r 0 (tiles_x - 1)).2 0 (tiles_y - 1)).1 = "forest"
    · rw [if_pos hcond] at hs
      rcases List.mem_cons.mp hs with rfl | hmem
      · exact ⟨(randint r 0 (tiles_x - 1)).1,
          (randint (randint r 0 (tiles_x - 1)).2 0 (tiles_y - 1)).1, rfl, rfl, hcond⟩
      · exact ih _ s hmem
    · rw [if_neg hcond] at hs
      exact ih _ s hs

/-- C9: every structure in the generated list has an origin drawn as a tile
(tx, ty) whose biome in the terrain map is grass or forest; candidates on
any other biome are rejected without being added. -/
theorem generate_structures_biome (terrain_map : List (List String))
    (world_width world_height tile_size : ℤ) (r : RngState) (s : Structure)
    (hs : s ∈ (generate_structures terrain_map world_width world_height tile_size r).1) :
    ∃ tx ty : ℤ, s.x = tx * tile_size ∧ s.y = ty * tile_size ∧
      (tile_biome terrain_map tx ty = "grass" ∨ tile_biome terrain_map tx ty = "forest") :=
  generate_structures_loop_biome terrain_map tile_size
    (world_width.fdiv tile_size) (world_height.fdiv tile_size)
    (randint r 5 15).1.toNat (randint r 5 15).2 s hs

/-- Witness for C9: on the one-tile grass world with tile size 32 and the
all-zero stream, the generated structure at the origin satisfies the biome
constraint. -/
theorem generate_structures_biome_witness :
    ∃ tx ty : ℤ, (⟨0, 0, "ruins", 64, 64⟩ : Structure).x = tx * 32 ∧
      (⟨0, 0, "ruins", 64, 64⟩ : Structure).y = ty * 32 ∧
      (tile_biome [["grass"]] tx ty = "grass" ∨ tile_biome [["grass"]] tx ty = "forest") :=
  generate_structures_biome [["grass"]] 32 32 32 rngA ⟨0, 0, "ruins", 64, 64⟩ (by decide)
